import Mathlib

/-!
Shallow embedding of the astroport-dca contract (order lifecycle and
purchase-execution engine) and proofs about its behaviour.

Machine integers (`Uint128`, `u64`) are modelled as `Nat` together with the
checked operations used by the source (`checked_sub`, `checked_add`,
`checked_mul`, `checked_rem`), which fail outside the machine range.
Persistent storage is modelled as association lists; the `IndexedMap` of
`cw_storage_plus` (primary map plus two `MultiIndex`es) is modelled as a
structure of three lists kept in sync by `save`/`remove` exactly as the
library does.  Handlers are pure functions from the contract state and the
call parameters to `Except ContractError (new state × outputs)`; the host's
all-or-nothing commit is modelled by `applyOp`, which keeps the old state
when a handler returns an error.
-/

namespace AstroportDca

/-- `Uint128::MAX + 1`. -/
def UINT128_LIMIT : Nat := 2 ^ 128

/-- `u64::MAX + 1`. -/
def U64_LIMIT : Nat := 2 ^ 64

/-- `Uint128::checked_sub`: fails on underflow. -/
def checkedSub (a b : Nat) : Option Nat :=
  if b ≤ a then some (a - b) else none

/-- `Uint128::checked_add`: fails on overflow past `2^128 - 1`. -/
def checkedAdd (a b : Nat) : Option Nat :=
  if a + b < UINT128_LIMIT then some (a + b) else none

/-- `Uint128::checked_mul`: fails on overflow past `2^128 - 1`. -/
def checkedMul (a b : Nat) : Option Nat :=
  if a * b < UINT128_LIMIT then some (a * b) else none

/-- `Uint128::checked_rem`: fails when the divisor is zero. -/
def checkedRem (a b : Nat) : Option Nat :=
  if b = 0 then none else some (a % b)

/-- Account address, modelled as a plain string. -/
abbrev Addr := String

/-- `astroport::asset::AssetInfo`: a native denom or a cw20 token contract. -/
inductive AssetInfo where
  | native (denom : String)
  | token (contract_addr : Addr)
deriving DecidableEq, Repr

/-- The `Display` of `AssetInfo` (used as the secondary-index key): the denom
for a native token, the contract address for a cw20 token. -/
def AssetInfo.display : AssetInfo → String
  | .native denom => denom
  | .token contract_addr => contract_addr

/-- `AssetInfo::is_native_token`. -/
def AssetInfo.is_native_token : AssetInfo → Bool
  | .native _ => true
  | .token _ => false

/-- `astroport::asset::Asset`: an asset info paired with a `Uint128` amount. -/
structure Asset where
  info : AssetInfo
  amount : Nat
deriving DecidableEq, Repr

/-- A native coin attached to a message (`cosmwasm_std::Coin`). -/
structure Coin where
  denom : String
  amount : Nat
deriving DecidableEq, Repr

/-- `cosmwasm_std::MessageInfo`: sender plus attached native funds. -/
structure MessageInfo where
  sender : Addr
  funds : List Coin
deriving DecidableEq, Repr

/-- The part of `cosmwasm_std::Env` the handlers read: `env.block.time.seconds()`. -/
structure Env where
  blockTime : Nat
deriving DecidableEq, Repr

/-- `astroport::router::SwapOperation`.  `max_spread`-style decimals never
influence control flow, so `Decimal` values are carried as opaque `Nat`s. -/
inductive SwapOperation where
  | nativeSwap (offer_denom ask_denom : String)
  | astroSwap (offer_asset_info ask_asset_info : AssetInfo)
deriving DecidableEq, Repr

/-- `SwapOperation::get_target_asset_info`. -/
def SwapOperation.get_target_asset_info : SwapOperation → AssetInfo
  | .nativeSwap _ ask_denom => .native ask_denom
  | .astroSwap _ ask_asset_info => ask_asset_info

/-- The offer side of a swap operation. -/
def SwapOperation.offerAssetInfo : SwapOperation → AssetInfo
  | .nativeSwap offer_denom _ => .native offer_denom
  | .astroSwap offer_asset_info _ => offer_asset_info

def SwapOperation.isNativeSwap : SwapOperation → Bool
  | .nativeSwap _ _ => true
  | .astroSwap _ _ => false

/-- `astroport_dca::dca::DcaInfo`: a stored DCA order. -/
structure DcaInfo where
  id : Nat
  initial_asset : Asset
  target_asset : AssetInfo
  interval : Nat
  last_purchase : Nat
  start_purchase : Option Nat
  dca_amount : Nat
  max_hops : Option Nat
  max_spread : Option Nat
  user : Addr
deriving DecidableEq, Repr

/-- `astroport_dca::dca::TipAssetInfo`: a whitelisted tip asset with its
per-hop fee. -/
structure TipAssetInfo where
  info : AssetInfo
  per_hop_fee : Nat
deriving DecidableEq, Repr

/-- The contract `Config` stored as a singleton item. -/
structure Config where
  max_hops : Nat
  max_spread : Nat
  whitelisted_tokens : List AssetInfo
  router_addr : Addr
deriving DecidableEq, Repr

/-- `Config::is_whitelisted_asset`. -/
def Config.is_whitelisted_asset (c : Config) (asset : AssetInfo) : Bool :=
  c.whitelisted_tokens.contains asset

/-- The errors raised by the handlers under verification
(`crate::error::ContractError`, plus the `StdError` arithmetic failures that
propagate through `?`). -/
inductive ContractError where
  | stdDivideByZero
  | stdGenericErr
  | stdNotFound
  | overflow
  | unauthorized
  | invalidZeroAmount
  | invalidBotTipToken (token : String)
  | invalidTokenDeposit
  | nativeTokenBalanceMismatch
  | startTimeInPast
  | duplicateAsset
  | depositTooSmall
  | indivisibleDeposit
  | nonExistentDca
  | emptyHopRoute
  | maxHopsAssertion (hops : Nat)
  | nativeSwapNotSupported
  | invalidHopRoute (token : String)
  | purchaseTooEarly
  | targetAssetAssertion
  | startAssetAssertion
  | insufficientBalance
  | noTipBalance
  | insufficientTipBalance
  | insufficientTipWithdrawBalance
deriving DecidableEq, Repr

/-- Outbound messages composed by the handlers. -/
inductive CosmosMsg where
  | bankSend (to_address : String) (denom : String) (amount : Nat)
  | cw20Transfer (token_addr : Addr) (recipient : Addr) (amount : Nat)
  | cw20TransferFrom (token_addr : Addr) (owner : Addr) (recipient : Addr) (amount : Nat)
  | routerSwap (router_addr : Addr) (operations : List SwapOperation)
      (recipient : Addr) (max_spread : Nat) (funds : List Coin)
deriving DecidableEq, Repr

/-- `Asset::into_msg`: a cw20 `Transfer` for a token, a bank send for a
native coin. -/
def Asset.into_msg (a : Asset) (recipient : Addr) : CosmosMsg :=
  match a.info with
  | .token contract_addr => .cw20Transfer contract_addr recipient a.amount
  | .native denom => .bankSend recipient denom a.amount

/-- `Asset::assert_sent_native_token_balance`: for a native asset the caller
must have attached exactly `amount` of the denom (a missing coin counts as
zero); for a token asset the check passes. -/
def assertSentNativeTokenBalance (a : Asset) (info : MessageInfo) :
    Except ContractError Unit :=
  match a.info with
  | .native denom =>
    match info.funds.find? (fun c => c.denom = denom) with
    | some coin =>
      if a.amount = coin.amount then .ok () else .error .nativeTokenBalanceMismatch
    | none =>
      if a.amount = 0 then .ok () else .error .nativeTokenBalanceMismatch
  | .token _ => .ok ()

/-- The secondary-index key of the `user` `MultiIndex`. -/
def userIndexKey (d : DcaInfo) : Addr := d.user

/-- The secondary-index key of the `user_asset` `MultiIndex`. -/
def userAssetIndexKey (d : DcaInfo) : Addr × String :=
  (d.user, d.initial_asset.info.display)

/-- The `IndexedMap` storing DCA orders: primary map keyed by id plus the two
`MultiIndex`es of `DcaRequestsIndexes` (entries are `(index key, primary key)`
pairs, as in `cw_storage_plus`). -/
structure OrderStore where
  primary : List (Nat × DcaInfo)
  idxUser : List (Addr × Nat)
  idxUserAsset : List ((Addr × String) × Nat)
deriving DecidableEq, Repr

namespace OrderStore

def empty : OrderStore := ⟨[], [], []⟩

/-- `IndexedMap::may_load` on the primary map. -/
def load (s : OrderStore) (k : Nat) : Option DcaInfo :=
  (s.primary.find? (fun e => e.1 = k)).map (fun e => e.2)

/-- `IndexedMap::save`: replace the old index entries of the previous value
(if any) and insert the entries of the new value, then write the primary
entry. -/
def save (s : OrderStore) (k : Nat) (v : DcaInfo) : OrderStore :=
  let cleared : OrderStore :=
    match s.load k with
    | some old =>
      { s with
        idxUser := s.idxUser.filter (fun e => e ≠ (userIndexKey old, k))
        idxUserAsset := s.idxUserAsset.filter (fun e => e ≠ (userAssetIndexKey old, k)) }
    | none => s
  { primary := (k, v) :: cleared.primary.filter (fun e => e.1 ≠ k)
    idxUser := (userIndexKey v, k) :: cleared.idxUser.filter (fun e => e ≠ (userIndexKey v, k))
    idxUserAsset := (userAssetIndexKey v, k) ::
      cleared.idxUserAsset.filter (fun e => e ≠ (userAssetIndexKey v, k)) }

/-- `IndexedMap::remove`: delete the primary entry and the index entries
derived from the stored value. -/
def remove (s : OrderStore) (k : Nat) : OrderStore :=
  match s.load k with
  | none => s
  | some old =>
    { primary := s.primary.filter (fun e => e.1 ≠ k)
      idxUser := s.idxUser.filter (fun e => e ≠ (userIndexKey old, k))
      idxUserAsset := s.idxUserAsset.filter (fun e => e ≠ (userAssetIndexKey old, k)) }

/-- Index consistency: every secondary-index entry points at a stored order
whose derived key matches.  `cw_storage_plus` maintains this; `save` and
`remove` preserve it. -/
def wfb (s : OrderStore) : Bool :=
  s.idxUser.all (fun e =>
    match s.load e.2 with
    | some d => e.1 = userIndexKey d
    | none => false) &&
  s.idxUserAsset.all (fun e =>
    match s.load e.2 with
    | some d => e.1 = userAssetIndexKey d
    | none => false)

end OrderStore

/-- The persistent state of the contract (the fields of `State` touched by
the handlers under verification). -/
structure ContractState where
  config : Config
  dcaId : Nat
  orders : OrderStore
  whitelisted_tip_tokens : List TipAssetInfo
  tipJars : List (Addr × List Asset)
deriving DecidableEq, Repr

/-- `Map::load` for the tip-jar map: fails when the key is absent. -/
def lookupJars (jars : List (Addr × List Asset)) (user : Addr) : Option (List Asset) :=
  (jars.find? (fun e => e.1 = user)).map (fun e => e.2)

/-- `Map::save` for the tip-jar map. -/
def saveJars (jars : List (Addr × List Asset)) (user : Addr) (v : List Asset) :
    List (Addr × List Asset) :=
  (user, v) :: jars.filter (fun e => e.1 ≠ user)

/-- The `start_purchase < current_time` test shared by create and modify. -/
def startTimeBad (start_purchase : Option Nat) (env : Env) : Bool :=
  match start_purchase with
  | some sp => decide (sp < env.blockTime)
  | none => false

/-- `handlers::create_dca_order`, with the result of the external
`get_token_allowance` query passed in as `allowance`.  Returns the new
contract state (the response carries only attributes). -/
def create_dca_order (s : ContractState) (env : Env) (info : MessageInfo)
    (initial_asset : Asset) (target_asset : AssetInfo) (interval : Nat)
    (dca_amount : Nat) (start_purchase : Option Nat) (max_hops : Option Nat)
    (max_spread : Option Nat) (allowance : Nat) :
    Except ContractError ContractState :=
  if startTimeBad start_purchase env then .error .startTimeInPast
  else if initial_asset.info = target_asset then .error .duplicateAsset
  else if dca_amount > initial_asset.amount then .error .depositTooSmall
  else match checkedRem initial_asset.amount dca_amount with
    | none => .error .stdDivideByZero
    | some r =>
      if ¬ r = 0 then .error .indivisibleDeposit
      else
        match (match initial_asset.info with
               | .native _ => assertSentNativeTokenBalance initial_asset info
               | .token _ =>
                 if allowance < initial_asset.amount then
                   .error .invalidTokenDeposit
                 else .ok ()) with
        | .error e => .error e
        | .ok () =>
          -- State::get_next_order_id
          if s.dcaId + 1 < U64_LIMIT then
            .ok { s with
                  dcaId := s.dcaId + 1
                  orders := s.orders.save (s.dcaId + 1)
                    { id := s.dcaId + 1
                      initial_asset := initial_asset
                      target_asset := target_asset
                      interval := interval
                      last_purchase := 0
                      dca_amount := dca_amount
                      max_hops := max_hops
                      start_purchase := start_purchase
                      max_spread := max_spread
                      user := info.sender } }
          else .error .stdGenericErr

/-- The funding / refund-message section of `handlers::modify_dca_order`
(source lines 53–120).  It inspects the old order, the new initial asset and
the call info, and either fails or yields the refund messages; it writes no
state. -/
def modifyFundingMessages (order : DcaInfo) (new_initial_asset : Asset)
    (info : MessageInfo) (allowance : Nat) :
    Except ContractError (List CosmosMsg) :=
  let should_refund := order.initial_asset.amount > new_initial_asset.amount
  match (if should_refund then
           checkedSub order.initial_asset.amount new_initial_asset.amount
         else
           checkedSub new_initial_asset.amount order.initial_asset.amount) with
  | none => .error .overflow
  | some diff =>
    let asset_difference : Asset := { info := new_initial_asset.info, amount := diff }
    if order.initial_asset.info = new_initial_asset.info then
      if ¬ should_refund then
        match order.initial_asset.info with
        | .native _ =>
          match assertSentNativeTokenBalance asset_difference info with
          | .error e => .error e
          | .ok () => .ok []
        | .token _ =>
          if allowance ≠ new_initial_asset.amount then .error .invalidTokenDeposit
          else .ok []
      else
        if new_initial_asset.info.is_native_token then
          .ok [asset_difference.into_msg info.sender]
        else .ok []
    else
      let refundMsgs :=
        if new_initial_asset.info.is_native_token then
          [order.initial_asset.into_msg info.sender]
        else []
      match new_initial_asset.info with
      | .native _ =>
        match assertSentNativeTokenBalance new_initial_asset info with
        | .error e => .error e
        | .ok () => .ok refundMsgs
      | .token _ =>
        if allowance ≠ new_initial_asset.amount then .error .invalidTokenDeposit
        else .ok refundMsgs

/-- `astroport_dca::dca::ModifyDcaOrderParameters`. -/
structure ModifyDcaOrderParameters where
  id : Nat
  new_initial_asset : Asset
  new_target_asset : AssetInfo
  new_interval : Nat
  new_dca_amount : Nat
  should_reset_purchase_time : Bool
  start_purchase : Option Nat
  max_hops : Option Nat
  max_spread : Option Nat
deriving DecidableEq, Repr

/-- The field overwrite performed by `modify_dca_order` (source lines
122–133): provided fields replace the stored ones; `last_purchase` resets to
the sentinel when `should_reset_purchase_time` is set. -/
def updatedOrder (order : DcaInfo) (p : ModifyDcaOrderParameters) : DcaInfo :=
  { order with
    initial_asset := p.new_initial_asset
    target_asset := p.new_target_asset
    interval := p.new_interval
    dca_amount := p.new_dca_amount
    max_hops := p.max_hops
    max_spread := p.max_spread
    start_purchase := p.start_purchase
    last_purchase := if p.should_reset_purchase_time then 0
                     else order.last_purchase }

/-- `handlers::modify_dca_order`, with the external allowance query's result
passed in as `allowance`. -/
def modify_dca_order (s : ContractState) (env : Env) (info : MessageInfo)
    (p : ModifyDcaOrderParameters) (allowance : Nat) :
    Except ContractError (ContractState × List CosmosMsg) :=
  match s.orders.load p.id with
  | none => .error .stdNotFound
  | some order =>
    if order.user ≠ info.sender then .error .unauthorized
    else
      match modifyFundingMessages order p.new_initial_asset info allowance with
      | .error e => .error e
      | .ok messages =>
        if startTimeBad (updatedOrder order p).start_purchase env then
          .error .startTimeInPast
        else if (updatedOrder order p).initial_asset.info =
                (updatedOrder order p).target_asset then
          .error .duplicateAsset
        else if (updatedOrder order p).dca_amount >
                (updatedOrder order p).initial_asset.amount then
          .error .depositTooSmall
        else match checkedRem (updatedOrder order p).initial_asset.amount
                    (updatedOrder order p).dca_amount with
          | none => .error .stdDivideByZero
          | some r =>
            if ¬ r = 0 then .error .indivisibleDeposit
            else .ok ({ s with orders := s.orders.save p.id (updatedOrder order p) },
                      messages)

/-- The loop body of `take_payment_from_tip_jar` over the user's jar vector:
takes the fee from the first whitelisted jar with sufficient balance,
removing a jar that is emptied, and leaves every other jar in place. -/
def takePaymentAux (whitelist : List TipAssetInfo) (hops_len : Nat) :
    List Asset → Except ContractError (List Asset × Asset)
  | [] => .error .insufficientTipBalance
  | jar :: rest =>
    match whitelist.find? (fun t => t.info = jar.info) with
    | some wt =>
      match checkedMul wt.per_hop_fee hops_len with
      | none => .error .overflow
      | some tip_cost =>
        if tip_cost ≤ jar.amount then
          let newAmount := jar.amount - tip_cost
          if newAmount = 0 then
            .ok (rest, { info := jar.info, amount := tip_cost })
          else
            .ok ({ jar with amount := newAmount } :: rest,
                 { info := jar.info, amount := tip_cost })
        else
          match takePaymentAux whitelist hops_len rest with
          | .error e => .error e
          | .ok (rest', asset) => .ok (jar :: rest', asset)
    | none =>
      match takePaymentAux whitelist hops_len rest with
      | .error e => .error e
      | .ok (rest', asset) => .ok (jar :: rest', asset)

/-- `take_payment_from_tip_jar`: load the user's jars (no entry is
`NoTipBalance`), take the payment, and save the updated jar vector. -/
def take_payment_from_tip_jar (s : ContractState) (user : Addr) (hops_len : Nat) :
    Except ContractError (ContractState × Asset) :=
  match lookupJars s.tipJars user with
  | none => .error .noTipBalance
  | some user_tip_jars =>
    match takePaymentAux s.whitelisted_tip_tokens hops_len user_tip_jars with
    | .error e => .error e
    | .ok (jars', tip) =>
      .ok ({ s with tipJars := saveJars s.tipJars user jars' }, tip)

/-- The middle-hop whitelist loop of `perform_dca_purchase` (it runs over all
hops but the last; `NativeSwap` entries are skipped there). -/
def checkMiddleHops (config : Config) : List SwapOperation → Except ContractError Unit
  | [] => .ok ()
  | .nativeSwap _ _ :: rest => checkMiddleHops config rest
  | .astroSwap _ ask_asset_info :: rest =>
    if config.is_whitelisted_asset ask_asset_info then checkMiddleHops config rest
    else .error (.invalidHopRoute ask_asset_info.display)

/-- The result event of a purchase: `astroport-dca/perform-finished` when the
order was exhausted and removed, `astroport-dca/perform-executed` otherwise. -/
inductive PerformEvent where
  | finished (id : Nat) (user : Addr)
  | executed (id : Nat) (user : Addr)
deriving DecidableEq, Repr

/-- The state write, outbound messages and event of a successful purchase
(source lines 118–189): the cw20 `TransferFrom` when the initial asset is a
token, the router swap execution (with attached native funds when the
initial asset is native), the order removal or write-back, and the tip
payment to the caller. -/
def performCommit (s1 : ContractState) (config : Config) (order : DcaInfo)
    (id : Nat) (env : Env) (sender : Addr) (hops : List SwapOperation)
    (tip_payment : Asset) (newAmount : Nat) :
    ContractState × List CosmosMsg × PerformEvent :=
  let order' : DcaInfo :=
    { order with
      initial_asset := { order.initial_asset with amount := newAmount }
      last_purchase := env.blockTime }
  let transferMsgs : List CosmosMsg :=
    match order.initial_asset.info with
    | .token contract_addr =>
      [.cw20TransferFrom contract_addr order.user config.router_addr order.dca_amount]
    | .native _ => []
  let funds : List Coin :=
    match order.initial_asset.info with
    | .native denom => [{ denom := denom, amount := order.dca_amount }]
    | .token _ => []
  let routerMsg : CosmosMsg :=
    .routerSwap config.router_addr hops order.user
      (order.max_spread.getD config.max_spread) funds
  if newAmount = 0 then
    ({ s1 with orders := s1.orders.remove id },
     transferMsgs ++ [routerMsg, tip_payment.into_msg sender],
     PerformEvent.finished order.id order.user)
  else
    ({ s1 with orders := s1.orders.save id order' },
     transferMsgs ++ [routerMsg, tip_payment.into_msg sender],
     PerformEvent.executed order.id order.user)

/-- `handlers::perform_dca_purchase`.  The querier (which would answer cw20
allowance queries) is modelled by the `allowance` argument; the source never
consults it here. -/
def perform_dca_purchase (s : ContractState) (env : Env) (sender : Addr)
    (id : Nat) (hops : List SwapOperation) (allowance : Nat) :
    Except ContractError (ContractState × List CosmosMsg × PerformEvent) :=
  match s.orders.load id with
  | none => .error .nonExistentDca
  | some order =>
    if hops = [] then .error .emptyHopRoute
    else if hops.length > (order.max_hops.getD s.config.max_hops) then
      .error (.maxHopsAssertion hops.length)
    else if hops.any (fun h => h.isNativeSwap) then .error .nativeSwapNotSupported
    else
      match checkMiddleHops s.config hops.dropLast with
      | .error e => .error e
      | .ok () =>
        if (match order.start_purchase with
            | some sp => decide (sp > env.blockTime)
            | none => false) then .error .purchaseTooEarly
        else if order.last_purchase > 0 ∧
                order.last_purchase + order.interval > env.blockTime then
          .error .purchaseTooEarly
        else
          match hops.getLast? with
          | none => .error .emptyHopRoute
          | some last_hop =>
            if last_hop.get_target_asset_info ≠ order.target_asset then
              .error .targetAssetAssertion
            else
              match checkedSub order.initial_asset.amount order.dca_amount with
              | none => .error .insufficientBalance
              | some newAmount =>
                match take_payment_from_tip_jar s order.user hops.length with
                | .error e => .error e
                | .ok (s1, tip_payment) =>
                  .ok (performCommit s1 s.config order id env sender hops
                        tip_payment newAmount)

/-- `handlers::add_bot_tip` (jar-based iteration): reject a zero amount,
require the asset to be a whitelisted tip token, then add to (or create) the
matching jar of the sender. -/
def add_bot_tip (s : ContractState) (sender : Addr) (asset : Asset) :
    Except ContractError ContractState :=
  if asset.amount = 0 then .error .invalidZeroAmount
  else if ¬ s.whitelisted_tip_tokens.any (fun t => t.info = asset.info) then
    .error (.invalidBotTipToken asset.info.display)
  else
    let tip_jars := (lookupJars s.tipJars sender).getD []
    match tip_jars.findIdx? (fun jar => jar.info = asset.info) with
    | some idx =>
      match tip_jars.get? idx with
      | none => .error .stdGenericErr
      | some jar =>
        match checkedAdd jar.amount asset.amount with
        | none => .error .overflow
        | some newAmount =>
          let jars' := tip_jars.set idx { jar with amount := newAmount }
          .ok { s with tipJars := saveJars s.tipJars sender jars' }
    | none =>
      .ok { s with tipJars := saveJars s.tipJars sender (tip_jars ++ [asset]) }

/-- `astroport_dca::user_config::UserConfig` (the iteration whose per-user
record carries the tip balances), as read by `handlers::withdraw`. -/
structure UserConfig where
  max_hops : Option Nat
  max_spread : Option Nat
  tips_balance : List Asset
deriving DecidableEq, Repr

def UserConfig.default : UserConfig := ⟨none, none, []⟩

def lookupUserConfig (ucs : List (Addr × UserConfig)) (user : Addr) :
    Option UserConfig :=
  (ucs.find? (fun e => e.1 = user)).map (fun e => e.2)

def saveUserConfig (ucs : List (Addr × UserConfig)) (user : Addr)
    (v : UserConfig) : List (Addr × UserConfig) :=
  (user, v) :: ucs.filter (fun e => e.1 ≠ user)

/-- The per-asset update of `withdraw`'s loop over `config.tips_balance`:
find the first entry with the requested asset's info (no entry is an error);
remove it if the requested amount equals the stored one, otherwise subtract
(underflow is `InsufficientTipWithdrawBalance`). -/
def withdrawTipsBalance : List Asset → Asset → Except ContractError (List Asset)
  | [], _ => .error .insufficientTipWithdrawBalance
  | b :: rest, a =>
    if b.info = a.info then
      if b.amount = a.amount then .ok rest
      else
        match checkedSub b.amount a.amount with
        | some nb => .ok ({ b with amount := nb } :: rest)
        | none => .error .insufficientTipWithdrawBalance
    else
      match withdrawTipsBalance rest a with
      | .error e => .error e
      | .ok rest' => .ok (b :: rest')

/-- The loop of `handlers::withdraw` over the requested assets, collecting
one transfer message per asset. -/
def withdrawLoop (sender : Addr) :
    List Asset → List Asset → Except ContractError (List Asset × List CosmosMsg)
  | balance, [] => .ok (balance, [])
  | balance, a :: rest =>
    match withdrawTipsBalance balance a with
    | .error e => .error e
    | .ok balance' =>
      match withdrawLoop sender balance' rest with
      | .error e => .error e
      | .ok (balance'', msgs) => .ok (balance'', a.into_msg sender :: msgs)

/-- `handlers::withdraw`: load the sender's `UserConfig` (or the default),
debit each requested asset from `tips_balance`, emit one transfer message
per asset, and save the updated record. -/
def withdraw (ucs : List (Addr × UserConfig)) (info : MessageInfo)
    (tips : List Asset) :
    Except ContractError (List (Addr × UserConfig) × List CosmosMsg) :=
  let config := (lookupUserConfig ucs info.sender).getD UserConfig.default
  match withdrawLoop info.sender config.tips_balance tips with
  | .error e => .error e
  | .ok (balance', msgs) =>
    .ok (saveUserConfig ucs info.sender { config with tips_balance := balance' },
         msgs)

/-- Insertion into a list of orders sorted by ascending key. -/
def insertByKey (e : Nat × DcaInfo) :
    List (Nat × DcaInfo) → List (Nat × DcaInfo)
  | [] => [e]
  | x :: xs => if e.1 ≤ x.1 then e :: x :: xs else x :: insertByKey e xs

/-- Sort primary-map entries by ascending key (`Map::range` iterates keys in
ascending byte order, which for `u64` keys is numeric order). -/
def sortByKey (l : List (Nat × DcaInfo)) : List (Nat × DcaInfo) :=
  l.foldr insertByKey []

/-- `range` with an exclusive `start_after` minimum bound, ascending. -/
def OrderStore.rangeAsc (s : OrderStore) (start_after : Option Nat) :
    List (Nat × DcaInfo) :=
  sortByKey (s.primary.filter (fun e =>
    match start_after with
    | some k => decide (k < e.1)
    | none => true))

/-- `range` with an exclusive `start_after` maximum bound, descending. -/
def OrderStore.rangeDesc (s : OrderStore) (start_after : Option Nat) :
    List (Nat × DcaInfo) :=
  (sortByKey (s.primary.filter (fun e =>
    match start_after with
    | some k => decide (e.1 < k)
    | none => true))).reverse

/-- Modelled from the spec: `crate::constants::DEFAULT_LIMIT` — the
`constants.rs` file is absent from the sources; the doc comment of
`get_user_asset_dca_orders` fixes it: "by default 10, max is 30". -/
def DEFAULT_LIMIT : Nat := 10

/-- Modelled from the spec: `crate::constants::MAX_LIMIT` — the
`constants.rs` file is absent from the sources; the doc comment of
`get_user_asset_dca_orders` fixes it: "by default 10, max is 30". -/
def MAX_LIMIT : Nat := 30

/-- `queries::get_dca_orders`: ascending range from the exclusive
`start_after` cursor, with the caller's limit capped at `MAX_LIMIT`. -/
def get_dca_orders (s : ContractState) (start_after : Option Nat)
    (limit : Option Nat) : List DcaInfo :=
  let lim := min (limit.getD DEFAULT_LIMIT) MAX_LIMIT
  ((s.orders.rangeAsc start_after).take lim).map (fun e => e.2)

/-- `queries::get_all_dca_orders::ORDER_LIMIT`. -/
def ORDER_LIMIT : Nat := 50

/-- `queries::get_all_dca_orders`: descending by default (ascending when
`is_ascending`), `start_after` as an exclusive bound, and the caller's limit
(default `ORDER_LIMIT`) applied with no cap. -/
def get_all_dca_orders (s : ContractState) (start_after : Option Nat)
    (limit : Option Nat) (is_ascending : Option Bool) : List DcaInfo :=
  let lst :=
    match is_ascending.getD false with
    | true => s.orders.rangeAsc start_after
    | false => s.orders.rangeDesc start_after
  (lst.take (limit.getD ORDER_LIMIT)).map (fun e => e.2)

/-- A mutating call against the order store, with the results of the
external queries (cw20 allowance) it may perform. -/
inductive Op where
  | create (env : Env) (info : MessageInfo) (initial_asset : Asset)
      (target_asset : AssetInfo) (interval : Nat) (dca_amount : Nat)
      (start_purchase : Option Nat) (max_hops : Option Nat)
      (max_spread : Option Nat) (allowance : Nat)
  | modify (env : Env) (info : MessageInfo) (p : ModifyDcaOrderParameters)
      (allowance : Nat)
  | purchase (env : Env) (sender : Addr) (id : Nat)
      (hops : List SwapOperation) (allowance : Nat)

/-- The state transition attempted by an operation. -/
def stepResult (s : ContractState) : Op → Except ContractError ContractState
  | .create env info ia ta iv da sp mh ms al =>
    create_dca_order s env info ia ta iv da sp mh ms al
  | .modify env info p al => (modify_dca_order s env info p al).map (fun r => r.1)
  | .purchase env sender id hops al =>
    (perform_dca_purchase s env sender id hops al).map (fun r => r.1)

/-- The host's all-or-nothing commit: a failed call leaves the state
untouched. -/
def applyOp (s : ContractState) (op : Op) : ContractState :=
  match stepResult s op with
  | .ok s' => s'
  | .error _ => s

/-- Run a sequence of calls. -/
def runOps (s : ContractState) (ops : List Op) : ContractState :=
  ops.foldl applyOp s

/-- The order as written back by a purchase: amount replaced, purchase time
stamped. -/
def writtenOrder (order : DcaInfo) (newAmount t : Nat) : DcaInfo :=
  { order with
    initial_asset := { order.initial_asset with amount := newAmount }
    last_purchase := t }

/-- The decremented, time-stamped order written back by a purchase that does
not exhaust the deposit. -/
def purchasedOrder (order : DcaInfo) (t : Nat) : DcaInfo :=
  writtenOrder order (order.initial_asset.amount - order.dca_amount) t

/-- A block environment used in concrete evaluations. -/
def exEnv : Env := ⟨1000⟩

/-- A caller info with 1000 `uusd` attached. -/
def exInfo : MessageInfo := ⟨"user1", [⟨"uusd", 1000⟩]⟩

/-- A small contract configuration. -/
def exConfig : Config := ⟨32, 1, [], "router"⟩

/-- A fresh contract state: no orders, one whitelisted tip token. -/
def exState0 : ContractState :=
  ⟨exConfig, 0, OrderStore.empty, [⟨.native "utip", 2⟩], []⟩

/-- A creation call depositing 1000 native `uusd` with `dca_amount` 100. -/
def exCreateOp : Op :=
  .create exEnv exInfo ⟨.native "uusd", 1000⟩ (.native "uluna") 600 100
    none none none 0

/-- A stored order: 900 native `uusd` left, `dca_amount` 100, target
`uluna`, interval 600, last purchased at 500. -/
def c2Order : DcaInfo :=
  ⟨1, ⟨.native "uusd", 900⟩, .native "uluna", 600, 500, none, 100, none, none,
   "user1"⟩

/-- A state holding `c2Order` under id 1 with consistent indices and a
funded tip jar. -/
def c2State : ContractState :=
  ⟨exConfig, 1, ⟨[(1, c2Order)], [("user1", 1)], [(("user1", "uusd"), 1)]⟩,
   [⟨.native "utip", 2⟩], [("user1", [⟨.native "utip", 100⟩])]⟩

/-- A single-hop route from `uusd` to `uluna`. -/
def c2Hops : List SwapOperation :=
  [.astroSwap (.native "uusd") (.native "uluna")]

/-- An order whose next purchase exhausts it: 100 `uusd` left, `dca_amount`
100, never purchased. -/
def c3Order : DcaInfo :=
  ⟨1, ⟨.native "uusd", 100⟩, .native "uluna", 600, 0, none, 100, none, none,
   "user1"⟩

/-- A state holding `c3Order` under id 1 with consistent indices and a tip
jar of 5 `utip`. -/
def c3State : ContractState :=
  ⟨exConfig, 1, ⟨[(1, c3Order)], [("user1", 1)], [(("user1", "uusd"), 1)]⟩,
   [⟨.native "utip", 2⟩], [("user1", [⟨.native "utip", 5⟩])]⟩

/-- The state after the exhausting purchase: order gone from the primary map
and both indices, tip jar debited by the per-hop fee. -/
def c3OutState : ContractState :=
  ⟨exConfig, 1, ⟨[], [], []⟩, [⟨.native "utip", 2⟩],
   [("user1", [⟨.native "utip", 3⟩])]⟩

/-- The messages of the exhausting purchase: router swap with attached
native funds, then the tip payment to the bot. -/
def c3Msgs : List CosmosMsg :=
  [.routerSwap "router" [.astroSwap (.native "uusd") (.native "uluna")]
    "user1" 1 [⟨"uusd", 100⟩],
   .bankSend "bot" "utip" 2]

/-- A jar the payment loop passes over: either its asset is not a
whitelisted tip token, or its balance does not cover
`per_hop_fee * hops_len` for that token. -/
def jarUnsuitable (w : List TipAssetInfo) (n : Nat) (j : Asset) : Bool :=
  match w.find? (fun x => x.info = j.info) with
  | some t => decide (j.amount < t.per_hop_fee * n)
  | none => true

/-- The jar vector after the payment loop debits `cost` from `jar`: the
debited jar is dropped when emptied, kept with the reduced balance
otherwise; all other jars stay in place. -/
def debitedJars (pre post : List Asset) (jar : Asset) (cost : Nat) :
    List Asset :=
  pre ++ (if jar.amount - cost = 0 then post
          else { jar with amount := jar.amount - cost } :: post)

/-- A tip-jar list exercising every branch of the payment loop: a
non-whitelisted jar, an underfunded whitelisted jar, and a jar whose balance
exactly covers the fee. -/
def c5State : ContractState :=
  ⟨exConfig, 0, OrderStore.empty,
   [⟨.native "utipA", 2⟩, ⟨.native "utipB", 3⟩],
   [("user1", [⟨.native "uother", 100⟩, ⟨.native "utipA", 5⟩,
               ⟨.native "utipB", 9⟩])]⟩

/-- An order holding 1000 native `uluna`. -/
def c6Order : DcaInfo :=
  ⟨1, ⟨.native "uluna", 1000⟩, .native "utarget", 600, 0, none, 100, none,
   none, "user1"⟩

/-- A state holding `c6Order` under id 1. -/
def c6State : ContractState :=
  ⟨exConfig, 1, ⟨[(1, c6Order)], [("user1", 1)], [(("user1", "uluna"), 1)]⟩,
   [⟨.native "utip", 2⟩], []⟩

/-- A modification switching the order's initial asset from native `uluna`
to the cw20 token `tokA`. -/
def c6Params : ModifyDcaOrderParameters :=
  ⟨1, ⟨.token "tokA", 100⟩, .native "uusd", 600, 10, false, none, none, none⟩

/-- The order created by `create_dca_order` on `exState0` at any block time:
`last_purchase` is the 0 sentinel, id is the incremented counter. -/
def c7Order : DcaInfo :=
  ⟨1, ⟨.native "uusd", 1000⟩, .native "uluna", 600, 0, none, 100, none, none,
   "user1"⟩

/-- The state after that creation. -/
def c7OutState : ContractState :=
  ⟨exConfig, 1, ⟨[(1, c7Order)], [("user1", 1)], [(("user1", "uusd"), 1)]⟩,
   [⟨.native "utip", 2⟩], []⟩

/-- A small order used to populate a large store. -/
def c8Order (i : Nat) : DcaInfo :=
  ⟨i, ⟨.native "uusd", 100⟩, .native "uluna", 600, 0, none, 100, none, none,
   "user1"⟩

/-- A store holding 51 orders with ids 1..51. -/
def c8State : ContractState :=
  ⟨exConfig, 51,
   ⟨(List.range 51).map (fun i => (i + 1, c8Order (i + 1))),
    (List.range 51).map (fun i => ("user1", i + 1)),
    (List.range 51).map (fun i => (("user1", "uusd"), i + 1))⟩,
   [], []⟩

/-- An order funded by the cw20 token `tokA`. -/
def c9Order : DcaInfo :=
  ⟨1, ⟨.token "tokA", 200⟩, .native "uluna", 600, 0, none, 100, none, none,
   "user1"⟩

/-- A user-config map with one tip balance of 7 `utip`. -/
def c10Ucs : List (Addr × UserConfig) :=
  [("user1", ⟨none, none, [⟨.native "utip", 7⟩]⟩)]

/-- The per-order arithmetic invariant of the spec:
`0 < dca_amount ≤ initial_asset.amount` and
`initial_asset.amount % dca_amount = 0`. -/
def orderInvariant (d : DcaInfo) : Prop :=
  0 < d.dca_amount ∧ d.dca_amount ≤ d.initial_asset.amount ∧
    d.initial_asset.amount % d.dca_amount = 0

/-- Every order in the store satisfies the arithmetic invariant. -/
def storeInvariant (s : ContractState) : Prop :=
  ∀ e ∈ s.orders.primary, orderInvariant e.2

theorem cleared_primary (s : OrderStore) (k : Nat) :
    (match s.load k with
     | some old =>
       { s with
         idxUser := s.idxUser.filter (fun e => e ≠ (userIndexKey old, k))
         idxUserAsset :=
           s.idxUserAsset.filter (fun e => e ≠ (userAssetIndexKey old, k)) }
     | none => s).primary = s.primary := by
  cases s.load k <;> rfl

theorem mem_save_primary {s : OrderStore} {k : Nat} {v : DcaInfo}
    {e : Nat × DcaInfo} (h : e ∈ (s.save k v).primary) :
    e = (k, v) ∨ e ∈ s.primary := by
  unfold OrderStore.save at h
  simp only [cleared_primary, List.mem_cons, List.mem_filter] at h
  rcases h with h | ⟨h, _⟩
  · exact Or.inl h
  · exact Or.inr h

theorem mem_remove_primary {s : OrderStore} {k : Nat} {e : Nat × DcaInfo}
    (h : e ∈ (s.remove k).primary) : e ∈ s.primary := by
  unfold OrderStore.remove at h
  cases hl : s.load k with
  | none => rw [hl] at h; exact h
  | some old =>
    rw [hl] at h
    simp only [List.mem_filter] at h
    exact h.1

theorem load_save_self (s : OrderStore) (k : Nat) (v : DcaInfo) :
    (s.save k v).load k = some v := by
  unfold OrderStore.save OrderStore.load
  simp [List.find?]

theorem take_payment_fields {s s' : ContractState} {user : Addr}
    {hops_len : Nat} {tip : Asset}
    (h : take_payment_from_tip_jar s user hops_len = .ok (s', tip)) :
    s'.orders = s.orders ∧ s'.config = s.config ∧ s'.dcaId = s.dcaId := by
  unfold take_payment_from_tip_jar at h
  split at h
  · exact absurd h (by simp)
  split at h
  · exact absurd h (by simp)
  cases h
  exact ⟨rfl, rfl, rfl⟩

theorem checkedRem_some {a b r : Nat} (h : checkedRem a b = some r) :
    b ≠ 0 ∧ r = a % b := by
  unfold checkedRem at h
  split at h
  · exact absurd h (by simp)
  · exact ⟨by assumption, (Option.some_injective _ h).symm⟩

theorem checkedSub_some {a b r : Nat} (h : checkedSub a b = some r) :
    b ≤ a ∧ r = a - b := by
  unfold checkedSub at h
  split at h
  · exact ⟨by assumption, (Option.some_injective _ h).symm⟩
  · exact absurd h (by simp)

theorem create_ok_shape {s : ContractState} {env : Env} {info : MessageInfo}
    {ia : Asset} {ta : AssetInfo} {iv da : Nat} {sp : Option Nat}
    {mh ms : Option Nat} {al : Nat} {s' : ContractState}
    (hok : create_dca_order s env info ia ta iv da sp mh ms al = .ok s') :
    0 < da ∧ da ≤ ia.amount ∧ ia.amount % da = 0 ∧
    s' = { s with
           dcaId := s.dcaId + 1
           orders := s.orders.save (s.dcaId + 1)
             { id := s.dcaId + 1
               initial_asset := ia
               target_asset := ta
               interval := iv
               last_purchase := 0
               dca_amount := da
               max_hops := mh
               start_purchase := sp
               max_spread := ms
               user := info.sender } } := by
  unfold create_dca_order at hok
  split at hok
  · exact absurd hok (by simp)
  split at hok
  · exact absurd hok (by simp)
  split at hok
  · exact absurd hok (by simp)
  rename_i hda
  split at hok
  · exact absurd hok (by simp)
  rename_i r hr
  split at hok
  · exact absurd hok (by simp)
  rename_i hr0
  split at hok
  · exact absurd hok (by simp)
  split at hok
  · rename_i hlt
    obtain ⟨hb, hrr⟩ := checkedRem_some hr
    have hr0' : r = 0 := not_not.mp hr0
    cases hok
    exact ⟨Nat.pos_of_ne_zero hb, by omega, by omega, rfl⟩
  · exact absurd hok (by simp)

theorem modify_ok_shape {s : ContractState} {env : Env} {info : MessageInfo}
    {p : ModifyDcaOrderParameters} {al : Nat} {s' : ContractState}
    {msgs : List CosmosMsg}
    (hok : modify_dca_order s env info p al = .ok (s', msgs)) :
    ∃ order, s.orders.load p.id = some order ∧
      0 < p.new_dca_amount ∧
      p.new_dca_amount ≤ p.new_initial_asset.amount ∧
      p.new_initial_asset.amount % p.new_dca_amount = 0 ∧
      s' = { s with orders := s.orders.save p.id (updatedOrder order p) } := by
  unfold modify_dca_order at hok
  split at hok
  · exact absurd hok (by simp)
  rename_i order hload
  split at hok
  · exact absurd hok (by simp)
  split at hok
  · exact absurd hok (by simp)
  split at hok
  · exact absurd hok (by simp)
  split at hok
  · exact absurd hok (by simp)
  split at hok
  · exact absurd hok (by simp)
  rename_i hdep
  split at hok
  · exact absurd hok (by simp)
  rename_i r hr
  split at hok
  · exact absurd hok (by simp)
  rename_i hr0
  obtain ⟨hb, hrr⟩ := checkedRem_some hr
  have hr0' : r = 0 := not_not.mp hr0
  simp only [updatedOrder] at hdep hb hrr
  cases hok
  exact ⟨order, hload, Nat.pos_of_ne_zero hb, by omega, by omega, rfl⟩

theorem modify_preserves {s : ContractState} {env : Env} {info : MessageInfo}
    {p : ModifyDcaOrderParameters} {al : Nat} {s' : ContractState}
    {msgs : List CosmosMsg}
    (hinv : storeInvariant s)
    (hok : modify_dca_order s env info p al = .ok (s', msgs)) :
    storeInvariant s' := by
  obtain ⟨order, _, h1, h2, h3, hs⟩ := modify_ok_shape hok
  subst hs
  intro e he
  rcases mem_save_primary he with rfl | he'
  · exact ⟨h1, h2, h3⟩
  · exact hinv e he'

theorem create_preserves {s : ContractState} {env : Env} {info : MessageInfo}
    {ia : Asset} {ta : AssetInfo} {iv da : Nat} {sp : Option Nat}
    {mh ms : Option Nat} {al : Nat} {s' : ContractState}
    (hinv : storeInvariant s)
    (hok : create_dca_order s env info ia ta iv da sp mh ms al = .ok s') :
    storeInvariant s' := by
  obtain ⟨h1, h2, h3, hs⟩ := create_ok_shape hok
  subst hs
  intro e he
  rcases mem_save_primary he with rfl | he'
  · exact ⟨h1, h2, h3⟩
  · exact hinv e he'

theorem load_some_mem {s : OrderStore} {k : Nat} {v : DcaInfo}
    (h : s.load k = some v) : (k, v) ∈ s.primary := by
  unfold OrderStore.load at h
  cases hf : s.primary.find? (fun e => e.1 = k) with
  | none => rw [hf] at h; simp at h
  | some e =>
    rw [hf] at h
    simp only [Option.map_some'] at h
    have hm := List.mem_of_find?_eq_some hf
    have hp := List.find?_some hf
    simp only [decide_eq_true_eq] at hp
    obtain ⟨a, b⟩ := e
    cases h
    cases hp
    exact hm

theorem performCommit_fst (s1 : ContractState) (config : Config)
    (order : DcaInfo) (id : Nat) (env : Env) (sender : Addr)
    (hops : List SwapOperation) (tip : Asset) (newAmount : Nat) :
    (performCommit s1 config order id env sender hops tip newAmount).1 =
    (if newAmount = 0 then { s1 with orders := s1.orders.remove id }
     else { s1 with
            orders := s1.orders.save id (writtenOrder order newAmount env.blockTime) }) := by
  simp only [performCommit, writtenOrder]
  split <;> rfl

theorem performCommit_event (s1 : ContractState) (config : Config)
    (order : DcaInfo) (id : Nat) (env : Env) (sender : Addr)
    (hops : List SwapOperation) (tip : Asset) (newAmount : Nat) :
    (performCommit s1 config order id env sender hops tip newAmount).2.2 =
    (if newAmount = 0 then PerformEvent.finished order.id order.user
     else PerformEvent.executed order.id order.user) := by
  simp only [performCommit]
  split <;> rfl

theorem perform_ok_shape {s : ContractState} {env : Env} {sender : Addr}
    {id : Nat} {hops : List SwapOperation} {al : Nat}
    {s' : ContractState} {msgs : List CosmosMsg} {ev : PerformEvent}
    (hok : perform_dca_purchase s env sender id hops al = .ok (s', msgs, ev)) :
    ∃ order s1 tip,
      s.orders.load id = some order ∧
      order.dca_amount ≤ order.initial_asset.amount ∧
      (0 < order.last_purchase →
        order.last_purchase + order.interval ≤ env.blockTime) ∧
      (∀ sp, order.start_purchase = some sp → sp ≤ env.blockTime) ∧
      take_payment_from_tip_jar s order.user hops.length = .ok (s1, tip) ∧
      ((order.initial_asset.amount - order.dca_amount = 0 ∧
        s' = { s1 with orders := s1.orders.remove id } ∧
        ev = .finished order.id order.user) ∨
       (order.initial_asset.amount - order.dca_amount ≠ 0 ∧
        s' = { s1 with
               orders := s1.orders.save id (purchasedOrder order env.blockTime) } ∧
        ev = .executed order.id order.user)) := by
  unfold perform_dca_purchase at hok
  split at hok
  · exact absurd hok (by simp)
  rename_i order hload
  split at hok
  · exact absurd hok (by simp)
  split at hok
  · exact absurd hok (by simp)
  split at hok
  · exact absurd hok (by simp)
  split at hok
  · exact absurd hok (by simp)
  split at hok
  · exact absurd hok (by simp)
  rename_i hstart0
  split at hok
  · exact absurd hok (by simp)
  rename_i hgate
  split at hok
  · exact absurd hok (by simp)
  split at hok
  · exact absurd hok (by simp)
  split at hok
  · exact absurd hok (by simp)
  rename_i newAmount hsub
  split at hok
  · exact absurd hok (by simp)
  rename_i s1 tip hpay
  obtain ⟨hle, hwn⟩ := checkedSub_some hsub
  subst hwn
  have htime : 0 < order.last_purchase →
      order.last_purchase + order.interval ≤ env.blockTime := by omega
  have hstart : ∀ sp, order.start_purchase = some sp → sp ≤ env.blockTime := by
    intro sp hsp
    rw [hsp] at hstart0
    simp at hstart0
    omega
  injection hok with h3
  have h1 : s' = (performCommit s1 s.config order id env sender hops tip
      (order.initial_asset.amount - order.dca_amount)).1 := by rw [h3]
  have h2 : ev = (performCommit s1 s.config order id env sender hops tip
      (order.initial_asset.amount - order.dca_amount)).2.2 := by rw [h3]
  rw [performCommit_fst] at h1
  rw [performCommit_event] at h2
  by_cases hz : order.initial_asset.amount - order.dca_amount = 0
  · rw [if_pos hz] at h1 h2
    exact ⟨order, s1, tip, hload, hle, htime, hstart, hpay, Or.inl ⟨hz, h1, h2⟩⟩
  · rw [if_neg hz] at h1 h2
    exact ⟨order, s1, tip, hload, hle, htime, hstart, hpay, Or.inr ⟨hz, h1, h2⟩⟩

theorem purchase_preserves {s : ContractState} {env : Env} {sender : Addr}
    {id : Nat} {hops : List SwapOperation} {al : Nat}
    {s' : ContractState} {msgs : List CosmosMsg} {ev : PerformEvent}
    (hinv : storeInvariant s)
    (hok : perform_dca_purchase s env sender id hops al = .ok (s', msgs, ev)) :
    storeInvariant s' := by
  obtain ⟨order, s1, tip, hload, hle, _, _, hpay, hbranch⟩ := perform_ok_shape hok
  have hORD : s1.orders = s.orders := (take_payment_fields hpay).1
  have hordInv : orderInvariant order := hinv (id, order) (load_some_mem hload)
  rcases hbranch with ⟨hz, rfl, _⟩ | ⟨hnz, rfl, _⟩
  · intro e he
    have := mem_remove_primary he
    rw [hORD] at this
    exact hinv e this
  · intro e he
    rcases mem_save_primary he with rfl | he'
    · obtain ⟨h1, h2, h3⟩ := hordInv
      have hdvd : order.dca_amount ∣ order.initial_asset.amount :=
        Nat.dvd_of_mod_eq_zero h3
      have hdvd' : order.dca_amount ∣
          order.initial_asset.amount - order.dca_amount :=
        Nat.dvd_sub' hdvd dvd_rfl
      refine ⟨h1, ?_, ?_⟩
      · exact Nat.le_of_dvd (Nat.pos_of_ne_zero hnz) hdvd'
      · obtain ⟨c, hc⟩ := hdvd'
        simp only [purchasedOrder, hc]
        exact Nat.mul_mod_right _ _
    · rw [hORD] at he'
      exact hinv e he'

theorem map_fst_ok {α β : Type} {x : Except ContractError (α × β)} {a : α}
    (h : x.map (fun r => r.1) = .ok a) : ∃ b, x = .ok (a, b) := by
  cases x with
  | error e => simp [Except.map] at h
  | ok pr =>
    obtain ⟨u, v⟩ := pr
    simp [Except.map] at h
    exact ⟨v, by rw [h]⟩

theorem applyOp_preserves {s : ContractState} {op : Op}
    (hinv : storeInvariant s) : storeInvariant (applyOp s op) := by
  cases hst : stepResult s op with
  | error e => simp only [applyOp, hst]; exact hinv
  | ok s' =>
    simp only [applyOp, hst]
    cases op with
    | create env info ia ta iv da sp mh ms al =>
      exact create_preserves hinv (by simpa [stepResult] using hst)
    | modify env info p al =>
      obtain ⟨msgs, hm⟩ := map_fst_ok (by simpa [stepResult] using hst)
      exact modify_preserves hinv hm
    | purchase env sender id hops al =>
      obtain ⟨b, hm⟩ := map_fst_ok (by simpa [stepResult] using hst)
      obtain ⟨msgs, ev⟩ := b
      exact purchase_preserves hinv hm

theorem runOps_preserves {ops : List Op} {s : ContractState}
    (hinv : storeInvariant s) : storeInvariant (runOps s ops) := by
  induction ops generalizing s with
  | nil => exact hinv
  | cons op rest ih => exact ih (applyOp_preserves hinv)

theorem applyOp_error {s : ContractState} {op : Op} {e : ContractError}
    (h : stepResult s op = .error e) : applyOp s op = s := by
  simp [applyOp, h]

theorem create_err_small {s : ContractState} {env : Env} {info : MessageInfo}
    {ia : Asset} {ta : AssetInfo} {iv da : Nat} {sp mh ms : Option Nat} {al : Nat}
    (hstart : startTimeBad sp env = false) (hdup : ia.info ≠ ta)
    (hlt : ia.amount < da) :
    create_dca_order s env info ia ta iv da sp mh ms al =
    .error .depositTooSmall := by
  simp [create_dca_order, hstart, hdup, hlt]

theorem create_err_div {s : ContractState} {env : Env} {info : MessageInfo}
    {ia : Asset} {ta : AssetInfo} {iv : Nat} {sp mh ms : Option Nat} {al : Nat}
    (hstart : startTimeBad sp env = false) (hdup : ia.info ≠ ta) :
    create_dca_order s env info ia ta iv 0 sp mh ms al =
    .error .stdDivideByZero := by
  simp [create_dca_order, hstart, hdup, checkedRem]

theorem create_err_indiv {s : ContractState} {env : Env} {info : MessageInfo}
    {ia : Asset} {ta : AssetInfo} {iv da : Nat} {sp mh ms : Option Nat} {al : Nat}
    (hstart : startTimeBad sp env = false) (hdup : ia.info ≠ ta)
    (hpos : 0 < da) (hle : da ≤ ia.amount) (hrem : ia.amount % da ≠ 0) :
    create_dca_order s env info ia ta iv da sp mh ms al =
    .error .indivisibleDeposit := by
  have h1 : ¬ ia.amount < da := by omega
  have h2 : da ≠ 0 := by omega
  simp [create_dca_order, hstart, hdup, h1, h2, checkedRem, hrem]

theorem modify_err_small {s : ContractState} {env : Env} {info : MessageInfo}
    {p : ModifyDcaOrderParameters} {al : Nat} {order : DcaInfo}
    {msgs : List CosmosMsg}
    (hload : s.orders.load p.id = some order)
    (huser : order.user = info.sender)
    (hfund : modifyFundingMessages order p.new_initial_asset info al = .ok msgs)
    (hstart : startTimeBad p.start_purchase env = false)
    (hdup : p.new_initial_asset.info ≠ p.new_target_asset)
    (hlt : p.new_initial_asset.amount < p.new_dca_amount) :
    modify_dca_order s env info p al = .error .depositTooSmall := by
  simp [modify_dca_order, hload, huser, hfund, updatedOrder, hstart, hdup, hlt]

theorem modify_err_div {s : ContractState} {env : Env} {info : MessageInfo}
    {p : ModifyDcaOrderParameters} {al : Nat} {order : DcaInfo}
    {msgs : List CosmosMsg}
    (hload : s.orders.load p.id = some order)
    (huser : order.user = info.sender)
    (hfund : modifyFundingMessages order p.new_initial_asset info al = .ok msgs)
    (hstart : startTimeBad p.start_purchase env = false)
    (hdup : p.new_initial_asset.info ≠ p.new_target_asset)
    (hz : p.new_dca_amount = 0) :
    modify_dca_order s env info p al = .error .stdDivideByZero := by
  simp [modify_dca_order, hload, huser, hfund, updatedOrder, hstart, hdup, hz,
    checkedRem]

theorem modify_err_indiv {s : ContractState} {env : Env} {info : MessageInfo}
    {p : ModifyDcaOrderParameters} {al : Nat} {order : DcaInfo}
    {msgs : List CosmosMsg}
    (hload : s.orders.load p.id = some order)
    (huser : order.user = info.sender)
    (hfund : modifyFundingMessages order p.new_initial_asset info al = .ok msgs)
    (hstart : startTimeBad p.start_purchase env = false)
    (hdup : p.new_initial_asset.info ≠ p.new_target_asset)
    (hpos : 0 < p.new_dca_amount)
    (hle : p.new_dca_amount ≤ p.new_initial_asset.amount)
    (hrem : p.new_initial_asset.amount % p.new_dca_amount ≠ 0) :
    modify_dca_order s env info p al = .error .indivisibleDeposit := by
  have h1 : ¬ p.new_initial_asset.amount < p.new_dca_amount := by omega
  have h2 : p.new_dca_amount ≠ 0 := by omega
  simp [modify_dca_order, hload, huser, hfund, updatedOrder, hstart, hdup, h1,
    h2, checkedRem, hrem]

/-- C1: after any sequence of `CreateDcaOrder`, `ModifyDcaOrder` and
`PerformDcaPurchase` calls, every stored order satisfies
`0 < dca_amount ≤ initial_asset.amount` and
`initial_asset.amount % dca_amount = 0`; a failed call leaves the store
unchanged; and a create or modify whose parameters would violate the
invariant (all earlier validations passing) fails with `DepositTooSmall`,
a divide-by-zero arithmetic error, or `IndivisibleDeposit` respectively. -/
theorem C1_order_invariant :
    (∀ (s : ContractState) (ops : List Op),
      storeInvariant s → storeInvariant (runOps s ops)) ∧
    (∀ (s : ContractState) (op : Op) (e : ContractError),
      stepResult s op = .error e → applyOp s op = s) ∧
    (∀ (s : ContractState) (env : Env) (info : MessageInfo) (ia : Asset)
       (ta : AssetInfo) (iv da : Nat) (sp mh ms : Option Nat) (al : Nat),
      startTimeBad sp env = false → ia.info ≠ ta →
      (ia.amount < da →
        create_dca_order s env info ia ta iv da sp mh ms al =
          .error .depositTooSmall) ∧
      (da = 0 →
        create_dca_order s env info ia ta iv da sp mh ms al =
          .error .stdDivideByZero) ∧
      (0 < da → da ≤ ia.amount → ia.amount % da ≠ 0 →
        create_dca_order s env info ia ta iv da sp mh ms al =
          .error .indivisibleDeposit)) ∧
    (∀ (s : ContractState) (env : Env) (info : MessageInfo)
       (p : ModifyDcaOrderParameters) (al : Nat) (order : DcaInfo)
       (msgs : List CosmosMsg),
      s.orders.load p.id = some order → order.user = info.sender →
      modifyFundingMessages order p.new_initial_asset info al = .ok msgs →
      startTimeBad p.start_purchase env = false →
      p.new_initial_asset.info ≠ p.new_target_asset →
      (p.new_initial_asset.amount < p.new_dca_amount →
        modify_dca_order s env info p al = .error .depositTooSmall) ∧
      (p.new_dca_amount = 0 →
        modify_dca_order s env info p al = .error .stdDivideByZero) ∧
      (0 < p.new_dca_amount → p.new_dca_amount ≤ p.new_initial_asset.amount →
        p.new_initial_asset.amount % p.new_dca_amount ≠ 0 →
        modify_dca_order s env info p al = .error .indivisibleDeposit)) := by
  refine ⟨fun s ops h => runOps_preserves h, fun s op e h => applyOp_error h,
    ?_, ?_⟩
  · intro s env info ia ta iv da sp mh ms al h1 h2
    exact ⟨fun h3 => create_err_small h1 h2 h3,
           fun h3 => by subst h3; exact create_err_div h1 h2,
           fun h3 h4 h5 => create_err_indiv h1 h2 h3 h4 h5⟩
  · intro s env info p al order msgs hl hu hf h1 h2
    exact ⟨fun h3 => modify_err_small hl hu hf h1 h2 h3,
           fun h3 => modify_err_div hl hu hf h1 h2 h3,
           fun h3 h4 h5 => modify_err_indiv hl hu hf h1 h2 h3 h4 h5⟩

/-- Witness for C1 at concrete inputs: the invariant holds after a concrete
successful creation, and the indivisible creation of spec scenario 1
(deposit 1000, `dca_amount` 999) fails with `IndivisibleDeposit`. -/
theorem C1_order_invariant_witness :
    storeInvariant (runOps exState0 [exCreateOp]) ∧
    create_dca_order exState0 exEnv exInfo ⟨.native "uusd", 1000⟩
      (.native "uluna") 600 999 none none none 0 =
      .error .indivisibleDeposit := by
  constructor
  · exact C1_order_invariant.1 exState0 [exCreateOp]
      (by intro e he; simp [exState0, OrderStore.empty] at he)
  · exact (C1_order_invariant.2.2.1 exState0 exEnv exInfo
      ⟨.native "uusd", 1000⟩ (.native "uluna") 600 999 none none none 0
      (by decide) (by decide)).2.2 (by decide) (by decide) (by decide)

/-- C2: for a stored order with non-sentinel `last_purchase = T` and
`interval = I`, any `PerformDcaPurchase` at block time `t < T + I` fails
(hence, by the all-or-nothing commit, mutates neither the order nor the tip
ledger), and fails with `PurchaseTooEarly` exactly when the validations
ahead of the timing gate pass. -/
theorem C2_purchase_too_early
    (s : ContractState) (env : Env) (sender : Addr) (id : Nat)
    (hops : List SwapOperation) (al : Nat) (order : DcaInfo)
    (hload : s.orders.load id = some order)
    (hT : 0 < order.last_purchase)
    (ht : env.blockTime < order.last_purchase + order.interval) :
    (∃ e, perform_dca_purchase s env sender id hops al = .error e) ∧
    applyOp s (.purchase env sender id hops al) = s ∧
    (hops ≠ [] →
     hops.length ≤ order.max_hops.getD s.config.max_hops →
     hops.any (fun h => h.isNativeSwap) = false →
     checkMiddleHops s.config hops.dropLast = .ok () →
     (∀ sp, order.start_purchase = some sp → sp ≤ env.blockTime) →
     perform_dca_purchase s env sender id hops al =
       .error .purchaseTooEarly) := by
  have herr : ∃ e, perform_dca_purchase s env sender id hops al = .error e := by
    cases hres : perform_dca_purchase s env sender id hops al with
    | error e => exact ⟨e, rfl⟩
    | ok triple =>
      obtain ⟨s', msgs, ev⟩ := triple
      obtain ⟨order', s1, tip, hload', _, htime, _, _, _⟩ :=
        perform_ok_shape hres
      rw [hload] at hload'
      injection hload' with h
      subst h
      omega
  refine ⟨herr, ?_, ?_⟩
  · obtain ⟨e, he⟩ := herr
    exact applyOp_error (e := e) (by simp [stepResult, he, Except.map])
  · intro hne hlen hnat hmid hstartOk
    have hlen' : ¬ hops.length > order.max_hops.getD s.config.max_hops := by
      omega
    have hgate : order.last_purchase > 0 ∧
        order.last_purchase + order.interval > env.blockTime := ⟨hT, ht⟩
    have hstart' : (match order.start_purchase with
        | some sp => decide (sp > env.blockTime)
        | none => false) = false := by
      cases hsp : order.start_purchase with
      | none => rfl
      | some sp =>
        have := hstartOk sp hsp
        simp only [decide_eq_false_iff_not]
        omega
    simp [perform_dca_purchase, hload, hne, hlen', hnat, hmid, hstart', hT, ht]

/-- Witness for C2: the purchase of `c2Order` at time 800 (< 500 + 600)
fails, and with a well-formed single-hop route it fails with
`PurchaseTooEarly`. -/
theorem C2_purchase_too_early_witness :
    (∃ e, perform_dca_purchase c2State ⟨800⟩ "bot" 1 c2Hops 0 = .error e) ∧
    perform_dca_purchase c2State ⟨800⟩ "bot" 1 c2Hops 0 =
      .error .purchaseTooEarly := by
  have h := C2_purchase_too_early c2State ⟨800⟩ "bot" 1 c2Hops 0 c2Order
    (by decide) (by decide) (by decide)
  exact ⟨h.1, h.2.2 (by decide) (by decide) (by decide) rfl
    (by intro sp hsp; simp [c2Order] at hsp)⟩

theorem load_remove_self (s : OrderStore) (k : Nat) :
    (s.remove k).load k = none := by
  unfold OrderStore.remove
  split
  · assumption
  · rename_i old heq
    unfold OrderStore.load
    simp only [Option.map_eq_none']
    rw [List.find?_eq_none]
    intro x hx
    simp only [List.mem_filter, decide_eq_true_eq] at hx
    simp only [decide_eq_true_eq]
    exact hx.2

theorem remove_idx_absent {s : OrderStore} {k : Nat} {old : DcaInfo}
    (hwf : s.wfb = true) (hload : s.load k = some old) :
    (∀ e ∈ (s.remove k).idxUser, e.2 ≠ k) ∧
    (∀ e ∈ (s.remove k).idxUserAsset, e.2 ≠ k) := by
  unfold OrderStore.wfb at hwf
  rw [Bool.and_eq_true] at hwf
  obtain ⟨hw1, hw2⟩ := hwf
  rw [List.all_eq_true] at hw1 hw2
  unfold OrderStore.remove
  rw [hload]
  constructor
  · intro e he
    simp only [List.mem_filter, decide_eq_true_eq] at he
    intro hek
    have h1 := hw1 e he.1
    rw [hek, hload] at h1
    simp only [decide_eq_true_eq] at h1
    exact he.2 (by
      obtain ⟨e1, e2⟩ := e
      simp only at h1 hek
      rw [h1, hek])
  · intro e he
    simp only [List.mem_filter, decide_eq_true_eq] at he
    intro hek
    have h1 := hw2 e he.1
    rw [hek, hload] at h1
    simp only [decide_eq_true_eq] at h1
    exact he.2 (by
      obtain ⟨e1, e2⟩ := e
      simp only at h1 hek
      rw [h1, hek])

/-- C3: a successful purchase that brings `initial_asset.amount` to exactly
zero removes the order from the primary store and both secondary indices in
the same commit (so a later purchase of that id fails with `NonExistentDca`)
and reports the finished event; a purchase leaving a nonzero remainder
persists the decremented, re-stamped order instead. -/
theorem C3_exhaustion_removal
    (s : ContractState) (env : Env) (sender : Addr) (id : Nat)
    (hops : List SwapOperation) (al : Nat) (order : DcaInfo)
    (s' : ContractState) (msgs : List CosmosMsg) (ev : PerformEvent)
    (hwf : s.orders.wfb = true)
    (hload : s.orders.load id = some order)
    (hok : perform_dca_purchase s env sender id hops al = .ok (s', msgs, ev)) :
    (order.initial_asset.amount - order.dca_amount = 0 →
      s'.orders.load id = none ∧
      (∀ e ∈ s'.orders.idxUser, e.2 ≠ id) ∧
      (∀ e ∈ s'.orders.idxUserAsset, e.2 ≠ id) ∧
      (∀ (env2 : Env) (sender2 : Addr) (hops2 : List SwapOperation) (al2 : Nat),
        perform_dca_purchase s' env2 sender2 id hops2 al2 =
          .error .nonExistentDca) ∧
      ev = .finished order.id order.user) ∧
    (order.initial_asset.amount - order.dca_amount ≠ 0 →
      s'.orders.load id = some (purchasedOrder order env.blockTime) ∧
      ev = .executed order.id order.user) := by
  obtain ⟨order', s1, tip, hload', _, _, _, hpay, hbranch⟩ :=
    perform_ok_shape hok
  rw [hload] at hload'
  injection hload' with h
  subst h
  have hORD : s1.orders = s.orders := (take_payment_fields hpay).1
  constructor
  · intro hz
    rcases hbranch with ⟨_, rfl, hev⟩ | ⟨hnz, _, _⟩
    · have hso : ({ s1 with orders := s1.orders.remove id } :
          ContractState).orders = s.orders.remove id := by rw [hORD]
      rw [hso]
      have hln : (s.orders.remove id).load id = none := load_remove_self _ _
      obtain ⟨hi1, hi2⟩ := remove_idx_absent hwf hload
      refine ⟨hln, hi1, hi2, ?_, hev⟩
      intro env2 sender2 hops2 al2
      simp [perform_dca_purchase, hORD, hln]
    · exact absurd hz hnz
  · intro hnz
    rcases hbranch with ⟨hz, _, _⟩ | ⟨_, rfl, hev⟩
    · exact absurd hz hnz
    · have hso : ({ s1 with
          orders := s1.orders.save id (purchasedOrder order env.blockTime) } :
          ContractState).orders =
          s.orders.save id (purchasedOrder order env.blockTime) := by rw [hORD]
      rw [hso]
      exact ⟨load_save_self _ _ _, hev⟩

/-- Witness for C3: the purchase exhausting `c3Order` removes id 1 from the
primary store and both indices, and a later purchase of id 1 fails with
`NonExistentDca`. -/
theorem C3_exhaustion_removal_witness :
    c3OutState.orders.load 1 = none ∧
    (∀ e ∈ c3OutState.orders.idxUser, e.2 ≠ 1) ∧
    (∀ e ∈ c3OutState.orders.idxUserAsset, e.2 ≠ 1) ∧
    perform_dca_purchase c3OutState ⟨2000⟩ "bot2" 1
      [.astroSwap (.native "uusd") (.native "uluna")] 0 =
      .error .nonExistentDca := by
  have h := (C3_exhaustion_removal c3State ⟨1000⟩ "bot" 1
    [.astroSwap (.native "uusd") (.native "uluna")] 0 c3Order c3OutState
    c3Msgs (.finished 1 "user1") (by decide) (by decide) rfl).1
    (by decide)
  exact ⟨h.1, h.2.1, h.2.2.1, h.2.2.2.1 ⟨2000⟩ "bot2"
    [.astroSwap (.native "uusd") (.native "uluna")] 0⟩

/-- C4 (code bug): `perform_dca_purchase` performs no check of the first
hop's offer asset against the order's `initial_asset.info`: against
`c3Order` (initial asset `uusd`) a route whose single hop offers `uosmo`
succeeds outright instead of failing with
`StartAssetAssertion`/`InitialAssetAssertion`. -/
theorem C4_no_first_hop_offer_check :
    (([SwapOperation.astroSwap (.native "uosmo") (.native "uluna")].head?).map
        SwapOperation.offerAssetInfo = some (.native "uosmo")) ∧
    c3Order.initial_asset.info = .native "uusd" ∧
    perform_dca_purchase c3State ⟨1000⟩ "bot" 1
      [.astroSwap (.native "uosmo") (.native "uluna")] 0 =
      .ok (c3OutState,
           [.routerSwap "router"
              [.astroSwap (.native "uosmo") (.native "uluna")]
              "user1" 1 [⟨"uusd", 100⟩],
            .bankSend "bot" "utip" 2],
           .finished 1 "user1") :=
  ⟨rfl, rfl, rfl⟩

theorem takePaymentAux_fail {w : List TipAssetInfo} {n : Nat}
    (hovf : ∀ t ∈ w, t.per_hop_fee * n < UINT128_LIMIT) :
    ∀ jars : List Asset,
      (∀ j ∈ jars, jarUnsuitable w n j = true) →
      takePaymentAux w n jars = .error .insufficientTipBalance := by
  intro jars
  induction jars with
  | nil => intro _; rfl
  | cons jar rest ih =>
    intro hall
    have hrest := fun j hj => hall j (List.mem_cons_of_mem _ hj)
    unfold takePaymentAux
    cases hf : w.find? (fun t => t.info = jar.info) with
    | none => simp only [hf, ih hrest]
    | some wt =>
      have hm : wt ∈ w := List.mem_of_find?_eq_some hf
      have hcost : checkedMul wt.per_hop_fee n = some (wt.per_hop_fee * n) := by
        unfold checkedMul
        rw [if_pos (hovf wt hm)]
      have hlt : jar.amount < wt.per_hop_fee * n := by
        have hj := hall jar (List.mem_cons_self _ _)
        unfold jarUnsuitable at hj
        rw [hf] at hj
        simpa using hj
      simp only [hf, hcost, if_neg (by omega : ¬ wt.per_hop_fee * n ≤ jar.amount),
        ih hrest]

theorem takePaymentAux_take {w : List TipAssetInfo} {n : Nat} {jar : Asset}
    {wt : TipAssetInfo} {post : List Asset}
    (hovf : ∀ t ∈ w, t.per_hop_fee * n < UINT128_LIMIT)
    (hwt : w.find? (fun t => t.info = jar.info) = some wt)
    (hsuf : wt.per_hop_fee * n ≤ jar.amount) :
    ∀ pre : List Asset,
      (∀ j ∈ pre, jarUnsuitable w n j = true) →
      takePaymentAux w n (pre ++ jar :: post) =
        .ok (pre ++ (if jar.amount - wt.per_hop_fee * n = 0 then post
                     else { jar with amount := jar.amount - wt.per_hop_fee * n }
                       :: post),
             { info := jar.info, amount := wt.per_hop_fee * n }) := by
  intro pre
  induction pre with
  | nil =>
    intro _
    have hm : wt ∈ w := List.mem_of_find?_eq_some hwt
    have hcost : checkedMul wt.per_hop_fee n = some (wt.per_hop_fee * n) := by
      unfold checkedMul
      rw [if_pos (hovf wt hm)]
    simp only [List.nil_append]
    unfold takePaymentAux
    simp only [hwt, hcost, if_pos hsuf]
    by_cases hz : jar.amount - wt.per_hop_fee * n = 0
    · simp only [if_pos hz]
    · simp only [if_neg hz]
  | cons j pre' ih =>
    intro hpre
    have hrest := fun x hx => hpre x (List.mem_cons_of_mem _ hx)
    simp only [List.cons_append]
    unfold takePaymentAux
    cases hf : w.find? (fun t => t.info = j.info) with
    | none => simp only [hf, ih hrest]
    | some t =>
      have hm : t ∈ w := List.mem_of_find?_eq_some hf
      have hcost : checkedMul t.per_hop_fee n = some (t.per_hop_fee * n) := by
        unfold checkedMul
        rw [if_pos (hovf t hm)]
      have hlt : j.amount < t.per_hop_fee * n := by
        have hj := hpre j (List.mem_cons_self _ _)
        unfold jarUnsuitable at hj
        rw [hf] at hj
        simpa using hj
      simp only [hf, hcost, if_neg (by omega : ¬ t.per_hop_fee * n ≤ j.amount),
        ih hrest]

/-- C5: on a purchase with `n` hops the tip debit is exactly
`per_hop_fee * n` of the first whitelisted jar, in stored order, whose
balance covers it — the jar is debited in place (and dropped when emptied),
earlier jars are left untouched, and the payment is never split; when no
single jar is whitelisted with sufficient balance the call fails with
`InsufficientTipBalance`. -/
theorem C5_tip_first_sufficient_jar :
    (∀ (s : ContractState) (user : Addr) (n : Nat) (pre post : List Asset)
       (jar : Asset) (wt : TipAssetInfo),
      lookupJars s.tipJars user = some (pre ++ jar :: post) →
      (∀ t ∈ s.whitelisted_tip_tokens, t.per_hop_fee * n < UINT128_LIMIT) →
      (∀ j ∈ pre, jarUnsuitable s.whitelisted_tip_tokens n j = true) →
      s.whitelisted_tip_tokens.find? (fun t => t.info = jar.info) = some wt →
      wt.per_hop_fee * n ≤ jar.amount →
      take_payment_from_tip_jar s user n =
        .ok ({ s with tipJars := saveJars s.tipJars user (debitedJars pre post jar (wt.per_hop_fee * n)) },
             { info := jar.info, amount := wt.per_hop_fee * n })) ∧
    (∀ (s : ContractState) (user : Addr) (n : Nat) (jars : List Asset),
      lookupJars s.tipJars user = some jars →
      (∀ t ∈ s.whitelisted_tip_tokens, t.per_hop_fee * n < UINT128_LIMIT) →
      (∀ j ∈ jars, jarUnsuitable s.whitelisted_tip_tokens n j = true) →
      take_payment_from_tip_jar s user n = .error .insufficientTipBalance) := by
  constructor
  · intro s user n pre post jar wt hjars hovf hpre hwt hsuf
    unfold take_payment_from_tip_jar
    simp only [hjars, takePaymentAux_take hovf hwt hsuf pre hpre, debitedJars]
  · intro s user n jars hjars hovf hall
    unfold take_payment_from_tip_jar
    simp only [hjars, takePaymentAux_fail hovf jars hall]

/-- Witness for C5: with jars `uother` (not whitelisted), `utipA` (balance 5
< fee 6) and `utipB` (balance 9 = fee 9), a three-hop payment takes the
whole `utipB` jar and removes it, leaving the earlier jars untouched. -/
theorem C5_tip_first_sufficient_jar_witness :
    take_payment_from_tip_jar c5State "user1" 3 =
      .ok ({ c5State with
             tipJars := saveJars c5State.tipJars "user1"
               [⟨.native "uother", 100⟩, ⟨.native "utipA", 5⟩] },
           ⟨.native "utipB", 9⟩) := by
  have h := C5_tip_first_sufficient_jar.1 c5State "user1" 3
    [⟨.native "uother", 100⟩, ⟨.native "utipA", 5⟩] []
    ⟨.native "utipB", 9⟩ ⟨.native "utipB", 3⟩ rfl (by decide) (by decide)
    rfl (by decide)
  simpa [debitedJars] using h

/-- C6 (code bug): when a modification replaces the order's initial asset
with a different one, the refund branch tests `new_initial_asset` for
nativeness (source line 99) instead of the old asset, contradicting its own
comment (line 98): switching from native `uluna` (1000 remaining) to token
`tokA` succeeds with an empty message list — no refund of the old native
deposit is issued. -/
theorem C6_missing_old_native_refund :
    c6Order.initial_asset.info.is_native_token = true ∧
    c6Params.new_initial_asset.info ≠ c6Order.initial_asset.info ∧
    modify_dca_order c6State ⟨1000⟩ ⟨"user1", []⟩ c6Params 100 =
      .ok ({ c6State with
             orders := c6State.orders.save 1 (updatedOrder c6Order c6Params) },
           []) :=
  ⟨rfl, by decide, rfl⟩

theorem applyOp_dcaId_mono (s : ContractState) (op : Op) :
    s.dcaId ≤ (applyOp s op).dcaId := by
  cases hst : stepResult s op with
  | error e => simp [applyOp, hst]
  | ok s' =>
    simp only [applyOp, hst]
    cases op with
    | create env info ia ta iv da sp mh ms al =>
      obtain ⟨_, _, _, hs⟩ := create_ok_shape (by simpa [stepResult] using hst)
      rw [hs]
      exact Nat.le_succ _
    | modify env info p al =>
      obtain ⟨msgs, hm⟩ := map_fst_ok (by simpa [stepResult] using hst)
      obtain ⟨order, _, _, _, _, hs⟩ := modify_ok_shape hm
      rw [hs]
    | purchase env sender id hops al =>
      obtain ⟨b, hm⟩ := map_fst_ok (by simpa [stepResult] using hst)
      obtain ⟨msgs, ev⟩ := b
      obtain ⟨order, s1, tip, _, _, _, _, hpay, hbranch⟩ := perform_ok_shape hm
      have hid : s1.dcaId = s.dcaId := (take_payment_fields hpay).2.2
      rcases hbranch with ⟨_, rfl, _⟩ | ⟨_, rfl, _⟩ <;> simp [hid]

/-- C7 counterexample: a creation at block time 100 with no `start_purchase`
stores `last_purchase = 0` (the sentinel), not the current block time 100 as
the claim requires. -/
theorem C7_counterexample :
    create_dca_order exState0 ⟨100⟩ exInfo ⟨.native "uusd", 1000⟩
      (.native "uluna") 600 100 none none none 0 = .ok c7OutState ∧
    c7OutState.orders.load 1 = some c7Order ∧
    c7Order.last_purchase = 0 ∧ c7Order.last_purchase ≠ 100 :=
  ⟨rfl, rfl, rfl, by decide⟩

/-- C7 as amended: every successful creation increments the monotonic
counter, stores the order under the new counter value with `last_purchase`
initialized to the 0 sentinel (regardless of `start_purchase` — alignment
with a future `start_purchase` is enforced by the purchase-time gate
instead), the new id is fresh whenever existing keys are bounded by the old
counter, and no operation ever decreases the counter (so ids are never
reused). -/
theorem C7_create_sentinel_and_fresh_id
    (s s' : ContractState) (env : Env) (info : MessageInfo) (ia : Asset)
    (ta : AssetInfo) (iv da : Nat) (sp mh ms : Option Nat) (al : Nat)
    (hok : create_dca_order s env info ia ta iv da sp mh ms al = .ok s') :
    s'.dcaId = s.dcaId + 1 ∧
    s'.orders.load (s.dcaId + 1) =
      some ⟨s.dcaId + 1, ia, ta, iv, 0, sp, da, mh, ms, info.sender⟩ ∧
    ((∀ e ∈ s.orders.primary, e.1 ≤ s.dcaId) →
      s.orders.load (s.dcaId + 1) = none) ∧
    (∀ op : Op, s.dcaId ≤ (applyOp s op).dcaId) := by
  obtain ⟨_, _, _, hs⟩ := create_ok_shape hok
  subst hs
  refine ⟨rfl, load_save_self _ _ _, ?_, fun op => applyOp_dcaId_mono s op⟩
  intro hbound
  unfold OrderStore.load
  simp only [Option.map_eq_none']
  rw [List.find?_eq_none]
  intro x hx
  have := hbound x hx
  simp only [decide_eq_true_eq]
  omega

/-- Witness for C7: the concrete creation on `exState0` increments the
counter to 1, and id 1 is fresh in the initial store. -/
theorem C7_create_sentinel_and_fresh_id_witness :
    c7OutState.dcaId = exState0.dcaId + 1 ∧
    exState0.orders.load (exState0.dcaId + 1) = none := by
  have h := C7_create_sentinel_and_fresh_id exState0 c7OutState ⟨1000⟩ exInfo
    ⟨.native "uusd", 1000⟩ (.native "uluna") 600 100 none none none 0 rfl
  exact ⟨h.1, h.2.2.1 (by intro e he; simp [exState0, OrderStore.empty] at he)⟩

theorem mem_insertByKey {e x : Nat × DcaInfo} {l : List (Nat × DcaInfo)} :
    x ∈ insertByKey e l ↔ x = e ∨ x ∈ l := by
  induction l with
  | nil => simp [insertByKey]
  | cons y ys ih =>
    unfold insertByKey
    split
    · simp [List.mem_cons]
    · simp only [List.mem_cons, ih]
      tauto

theorem mem_sortByKey {x : Nat × DcaInfo} {l : List (Nat × DcaInfo)} :
    x ∈ sortByKey l ↔ x ∈ l := by
  induction l with
  | nil => exact Iff.rfl
  | cons y ys ih =>
    show x ∈ insertByKey y (sortByKey ys) ↔ _
    rw [mem_insertByKey, ih]
    simp [List.mem_cons]

theorem rangeAsc_mem {s : OrderStore} {k : Nat} {x : Nat × DcaInfo}
    (h : x ∈ s.rangeAsc (some k)) : x ∈ s.primary ∧ k < x.1 := by
  unfold OrderStore.rangeAsc at h
  rw [mem_sortByKey] at h
  simp only [List.mem_filter, decide_eq_true_eq] at h
  exact h

theorem rangeDesc_mem {s : OrderStore} {k : Nat} {x : Nat × DcaInfo}
    (h : x ∈ s.rangeDesc (some k)) : x ∈ s.primary ∧ x.1 < k := by
  unfold OrderStore.rangeDesc at h
  rw [List.mem_reverse, mem_sortByKey] at h
  simp only [List.mem_filter, decide_eq_true_eq] at h
  exact h

/-- C8 counterexample: `get_all_dca_orders` applies the caller's limit with
no cap — on a store of 51 orders, `limit = 51` returns 51 orders, exceeding
both the query's own `ORDER_LIMIT = 50` default and the `MAX_LIMIT = 30`
cap the other paginated queries use. -/
theorem C8_uncapped_limit_counterexample :
    ORDER_LIMIT = 50 ∧ MAX_LIMIT = 30 ∧
    (get_all_dca_orders c8State none (some 51) (some true)).length = 51 :=
  ⟨rfl, rfl, by decide⟩

/-- C8 as amended: `get_dca_orders` (and its `user_asset` sibling, which
shares the `DEFAULT_LIMIT`/`MAX_LIMIT` logic) never returns more than
`MAX_LIMIT` orders whatever limit the caller passes, and `start_after` is an
exclusive cursor on the order id in every paginated query; `get_all_dca_orders`
applies the caller's limit without a cap (see the counterexample). -/
theorem C8_pagination
    (s : ContractState) (k : Nat) (sa lim : Option Nat)
    (hkeys : ∀ e ∈ s.orders.primary, e.2.id = e.1) :
    (get_dca_orders s sa lim).length ≤ MAX_LIMIT ∧
    (∀ o ∈ get_dca_orders s (some k) lim, k < o.id) ∧
    (∀ o ∈ get_all_dca_orders s (some k) lim (some true), k < o.id) ∧
    (∀ o ∈ get_all_dca_orders s (some k) lim (some false), o.id < k) := by
  refine ⟨?_, ?_, ?_, ?_⟩
  · unfold get_dca_orders
    rw [List.length_map, List.length_take]
    exact le_trans (Nat.min_le_left _ _) (Nat.min_le_right _ _)
  · intro o ho
    unfold get_dca_orders at ho
    obtain ⟨e, he, rfl⟩ := List.mem_map.mp ho
    obtain ⟨hp, hk⟩ := rangeAsc_mem (List.mem_of_mem_take he)
    rw [hkeys e hp]
    exact hk
  · intro o ho
    unfold get_all_dca_orders at ho
    obtain ⟨e, he, rfl⟩ := List.mem_map.mp ho
    obtain ⟨hp, hk⟩ := rangeAsc_mem (List.mem_of_mem_take he)
    rw [hkeys e hp]
    exact hk
  · intro o ho
    unfold get_all_dca_orders at ho
    obtain ⟨e, he, rfl⟩ := List.mem_map.mp ho
    obtain ⟨hp, hk⟩ := rangeDesc_mem (List.mem_of_mem_take he)
    rw [hkeys e hp]
    exact hk

/-- Witness for C8: on the one-order store, a caller limit of 51 still
yields at most `MAX_LIMIT` orders from `get_dca_orders`, and the cursor 0 is
exclusive. -/
theorem C8_pagination_witness :
    (get_dca_orders c2State none (some 51)).length ≤ MAX_LIMIT ∧
    (∀ o ∈ get_dca_orders c2State (some 0) (some 51), 0 < o.id) := by
  have h := C8_pagination c2State 0 none (some 51) (by decide)
  exact ⟨h.1, h.2.1⟩

/-- C9: the outcome of a purchase — success or failure and every state
write — is independent of the owner's cw20 allowance: the handler makes no
allowance query (the allowance oracle argument is never consulted), and for
a token-funded order the `TransferFrom` message is composed
unconditionally. -/
theorem C9_allowance_independence :
    (∀ (s : ContractState) (env : Env) (sender : Addr) (id : Nat)
       (hops : List SwapOperation) (a1 a2 : Nat),
      perform_dca_purchase s env sender id hops a1 =
        perform_dca_purchase s env sender id hops a2) ∧
    (∀ (s1 : ContractState) (config : Config) (order : DcaInfo) (id : Nat)
       (env : Env) (sender : Addr) (hops : List SwapOperation) (tip : Asset)
       (newAmount : Nat) (c : Addr),
      order.initial_asset.info = .token c →
      CosmosMsg.cw20TransferFrom c order.user config.router_addr
          order.dca_amount ∈
        (performCommit s1 config order id env sender hops tip
          newAmount).2.1) := by
  constructor
  · intro s env sender id hops a1 a2
    rfl
  · intro s1 config order id env sender hops tip newAmount c hc
    simp only [performCommit, hc]
    split <;> simp

/-- Witness for C9: the `TransferFrom` of the token-funded `c9Order` appears
in the composed messages at a concrete input. -/
theorem C9_allowance_independence_witness :
    perform_dca_purchase c3State ⟨1000⟩ "bot" 1 c2Hops 7 =
      perform_dca_purchase c3State ⟨1000⟩ "bot" 1 c2Hops 123456 ∧
    CosmosMsg.cw20TransferFrom "tokA" "user1" "router" 100 ∈
      (performCommit exState0 exConfig c9Order 1 ⟨1000⟩ "bot" c2Hops
        ⟨.native "utip", 2⟩ 100).2.1 :=
  ⟨C9_allowance_independence.1 c3State ⟨1000⟩ "bot" 1 c2Hops 7 123456,
   C9_allowance_independence.2 exState0 exConfig c9Order 1 ⟨1000⟩ "bot"
     c2Hops ⟨.native "utip", 2⟩ 100 "tokA" rfl⟩

theorem withdrawTipsBalance_zero {a : AssetInfo} :
    ∀ (l : List Asset) (bal : Asset),
      l.find? (fun b => b.info = a) = some bal → bal.amount ≠ 0 →
      withdrawTipsBalance l ⟨a, 0⟩ = .ok l := by
  intro l
  induction l with
  | nil => intro bal hf _; simp [List.find?] at hf
  | cons b rest ih =>
    intro bal hf hnz
    unfold withdrawTipsBalance
    by_cases hb : b.info = a
    · rw [List.find?_cons_of_pos _ (by simp [hb])] at hf
      injection hf with hf
      subst hf
      obtain ⟨bi, bam⟩ := b
      simp only at hb hnz
      subst hb
      simp [hnz, checkedSub]
    · rw [List.find?_cons_of_neg _ (by simp [hb])] at hf
      simp [hb, ih bal hf hnz]

/-- C10: a tip withdrawal of amount zero for an asset with a positive
stored balance succeeds — the stored balance is unchanged and a transfer
message of amount zero is still emitted — while a tip deposit of amount
zero is rejected with `InvalidZeroAmount`. -/
theorem C10_zero_withdraw_vs_zero_deposit :
    (∀ (ucs : List (Addr × UserConfig)) (info : MessageInfo) (a : AssetInfo)
       (cfg : UserConfig) (bal : Asset),
      lookupUserConfig ucs info.sender = some cfg →
      cfg.tips_balance.find? (fun b => b.info = a) = some bal →
      bal.amount ≠ 0 →
      withdraw ucs info [⟨a, 0⟩] =
        .ok (saveUserConfig ucs info.sender cfg,
             [Asset.into_msg ⟨a, 0⟩ info.sender])) ∧
    (∀ (s : ContractState) (sender : Addr) (asset : Asset),
      asset.amount = 0 →
      add_bot_tip s sender asset = .error .invalidZeroAmount) := by
  constructor
  · intro ucs info a cfg bal hcfg hf hnz
    unfold withdraw
    rw [hcfg]
    simp only [Option.getD_some]
    unfold withdrawLoop
    rw [withdrawTipsBalance_zero cfg.tips_balance bal hf hnz]
    simp [withdrawLoop]
  · intro s sender asset hz
    simp [add_bot_tip, hz]

/-- Witness for C10: withdrawing zero `utip` against a balance of 7 leaves
the balance at 7 and emits a zero-amount bank send, while a zero deposit
errors. -/
theorem C10_zero_withdraw_vs_zero_deposit_witness :
    withdraw c10Ucs ⟨"user1", []⟩ [⟨.native "utip", 0⟩] =
      .ok (saveUserConfig c10Ucs "user1" ⟨none, none, [⟨.native "utip", 7⟩]⟩,
           [.bankSend "user1" "utip" 0]) ∧
    add_bot_tip exState0 "user1" ⟨.native "utip", 0⟩ =
      .error .invalidZeroAmount := by
  constructor
  · have h := C10_zero_withdraw_vs_zero_deposit.1 c10Ucs ⟨"user1", []⟩
      (.native "utip") ⟨none, none, [⟨.native "utip", 7⟩]⟩
      ⟨.native "utip", 7⟩ rfl rfl (by decide)
    simpa using h
  · exact C10_zero_withdraw_vs_zero_deposit.2 exState0 "user1"
      ⟨.native "utip", 0⟩ rfl

end AstroportDca
